import Mathlib

/-!
Verification of the OpsTwin policy core (`src/opstwin/policy/`).

Shallow embedding conventions:
* Python `float` is modelled by `ℚ` (exact rational arithmetic).
* Python `dict` is modelled by association lists; `set` by lists up to
  membership.
* ISO-8601 timestamp strings (compared lexicographically in the source,
  equivalently chronologically for the fixed format) are modelled by `ℕ`.
* Nondeterministic fields produced by `uuid4()` / `datetime.utcnow()`
  (`decision_id`, audit timestamps) and the purely informational
  human-readable number formatting inside `reasoning` strings are elided;
  no verified property mentions them.
-/

namespace OpsTwin

/-! ### Rounding

Python's `round(x, 4)` rounds to the nearest multiple of `10⁻⁴`, ties to
even (banker's rounding).  We model it exactly over `ℚ`. -/

/-- Round a rational to the nearest integer, ties to even. -/
def roundHalfEvenInt (q : ℚ) : ℤ :=
  if q - ⌊q⌋ < 1/2 then ⌊q⌋
  else if q - ⌊q⌋ > 1/2 then ⌊q⌋ + 1
  else if ⌊q⌋ % 2 = 0 then ⌊q⌋ else ⌊q⌋ + 1

/-- Python's `round(q, 4)` over exact rationals. -/
def round4 (q : ℚ) : ℚ := (roundHalfEvenInt (q * 10000) : ℚ) / 10000

theorem roundHalfEvenInt_nonneg (q : ℚ) (h : 0 ≤ q) : 0 ≤ roundHalfEvenInt q := by
  have hf : (0:ℤ) ≤ ⌊q⌋ := Int.floor_nonneg.mpr h
  unfold roundHalfEvenInt
  split_ifs <;> omega

theorem roundHalfEvenInt_le (q : ℚ) (n : ℤ) (h : q ≤ n) : roundHalfEvenInt q ≤ n := by
  have hf : ⌊q⌋ ≤ n := by
    have := Int.floor_le_floor h
    simpa using this
  unfold roundHalfEvenInt
  split_ifs with h1 h2 h3
  · exact hf
  · have hlt : ((⌊q⌋ : ℚ)) < n := by
      have hx : (⌊q⌋ : ℚ) + 1/2 ≤ q := by linarith
      have : (⌊q⌋ : ℚ) < q := by linarith
      exact lt_of_lt_of_le this h
    have : ⌊q⌋ < n := by exact_mod_cast hlt
    omega
  · have hlt : ((⌊q⌋ : ℚ)) < n := by
      have hx : (⌊q⌋ : ℚ) + 1/2 ≤ q := by linarith
      have : (⌊q⌋ : ℚ) < q := by linarith
      exact lt_of_lt_of_le this h
    have : ⌊q⌋ < n := by exact_mod_cast hlt
    omega
  · have hlt : ((⌊q⌋ : ℚ)) < n := by
      have hx : (⌊q⌋ : ℚ) + 1/2 ≤ q := by linarith
      have : (⌊q⌋ : ℚ) < q := by linarith
      exact lt_of_lt_of_le this h
    have : ⌊q⌋ < n := by exact_mod_cast hlt
    omega

theorem round4_mem_unit (q : ℚ) (h0 : 0 ≤ q) (h1 : q ≤ 1) :
    0 ≤ round4 q ∧ round4 q ≤ 1 := by
  have hlo : (0:ℤ) ≤ roundHalfEvenInt (q * 10000) :=
    roundHalfEvenInt_nonneg _ (by positivity)
  have hhi : roundHalfEvenInt (q * 10000) ≤ (10000 : ℤ) :=
    roundHalfEvenInt_le _ 10000 (by push_cast; linarith)
  constructor
  · have : (0:ℚ) ≤ (roundHalfEvenInt (q * 10000) : ℚ) := by exact_mod_cast hlo
    unfold round4
    positivity
  · unfold round4
    rw [div_le_one (by norm_num)]
    exact_mod_cast hhi

/-! ### Confidence scorer (`confidence_scorer.py`)

`ConfidenceScorer.calculate` combines four component scores with fixed
weights.  The per-subject outcome history `self._history` is modelled as a
function from twin id to the list of recorded outcomes. -/

/-- One entry of `self._history[twin_id]` (`record_outcome` payload). -/
structure HistoryEntry where
  action_id : String
  success : Bool
  confidence : ℚ
deriving DecidableEq, Repr

/-- `simulation_result`: a dict with an `uncertainty` mapping metric → std-dev.
A Python `None` (or falsy empty dict) argument is `Option.none`; a dict whose
`uncertainty` key is absent or empty has `uncertainty = []`. -/
structure SimResult where
  uncertainty : List (String × ℚ)
deriving DecidableEq, Repr

/-- One element of `ai_agents`.  `recommendation = none` models an absent
key; `some ""` models the falsy empty string (both dropped by the source's
truthiness filter). -/
structure Agent where
  recommendation : Option String
deriving DecidableEq, Repr

/-- The truthiness filter `a.get("recommendation")` of the source. -/
def agentRec (a : Agent) : Option String :=
  match a.recommendation with
  | some r => if r = "" then none else some r
  | none => none

/-- Result type of `ConfidenceScorer.calculate`.  The four components are
the exact keys the source puts in the `components` dict. -/
structure Components where
  historical_success_rate : ℚ
  data_quality_score : ℚ
  simulation_consistency : ℚ
  ai_consensus_score : ℚ
deriving DecidableEq, Repr

structure ConfidenceResult where
  total : ℚ
  components : Components
deriving DecidableEq, Repr

/-- Weight constants `ConfidenceScorer.WEIGHTS`. -/
def W_hist : ℚ := 25/100

def W_dq : ℚ := 25/100

def W_sim : ℚ := 30/100

def W_ai : ℚ := 20/100

/-- `_compute_historical_success`: success ratio, `0.5` below 10 samples. -/
def compute_historical_success (history : List HistoryEntry) : ℚ :=
  if history.length < 10 then 1/2
  else ((history.filter (fun h => h.success)).length : ℚ) / (history.length : ℚ)

/-- Maximum of a list of rationals (Python `max` on a nonempty list;
the `[]` case is unreachable in the source). -/
def listMaxQ : List ℚ → ℚ
  | [] => 0
  | x :: xs => xs.foldl max x

/-- `_compute_sim_consistency`. -/
def compute_sim_consistency (simulation_result : Option SimResult) : ℚ :=
  match simulation_result with
  | none => 1/2
  | some s =>
    if s.uncertainty.isEmpty then 8/10
    else
      let maxStd := listMaxQ (s.uncertainty.map Prod.snd)
      round4 (max 0 (1 - maxStd))

/-- `Counter(l).most_common(1)[0][1]`: the largest multiplicity in `l`. -/
def mostCommonCount (l : List String) : ℕ :=
  (l.map (fun x => l.count x)).foldl max 0

/-- `_compute_ai_consensus`. -/
def compute_ai_consensus (ai_agents : Option (List Agent)) : ℚ :=
  match ai_agents with
  | none => 1/2
  | some agents =>
    if agents.length < 2 then 1/2
    else
      let recommendations := agents.filterMap agentRec
      if recommendations.isEmpty then 1/2
      else round4 ((mostCommonCount recommendations : ℚ) / (recommendations.length : ℚ))

/-- `ConfidenceScorer.calculate`.  `historyMap` models
`self._history.get(twin_id, [])`; the pipe-joined `reasoning` trace is
purely informational and elided. -/
def calculate (historyMap : String → List HistoryEntry) (twin_id : String)
    (data_quality : Option ℚ) (simulation_result : Option SimResult)
    (ai_agents : Option (List Agent)) : ConfidenceResult :=
  let historical := compute_historical_success (historyMap twin_id)
  let dq := data_quality.getD (8/10)
  let sim := compute_sim_consistency simulation_result
  let ai := compute_ai_consensus ai_agents
  let total := historical * W_hist + dq * W_dq + sim * W_sim + ai * W_ai
  { total := round4 total
    components :=
      { historical_success_rate := historical
        data_quality_score := dq
        simulation_consistency := sim
        ai_consensus_score := ai } }

/-! ### Decision maker (`decision_maker.py`)

`DecisionMaker.decide` maps a confidence total plus the registered safety
constraints (`self._safety_constraints`) and an optional proposed action to
a `Decision`.  The `uuid4` decision id, the timestamp, the unused `context`
argument and the append to the introspection-only `self._decision_log` are
elided; the numeric interpolation inside `reasoning` strings is elided. -/

inductive DecisionType
  | autoExecute
  | requireApproval
  | requireAnalysis
  | reject
deriving DecidableEq, Repr

/-- A `proposed_action` dict.  A missing `"type"` key defaults to `""` and a
missing `"emergency"` key defaults to `False` in the source; a Python `None`
(or falsy empty dict) action is `Option.none` at the call sites below. -/
structure ActionR where
  type : String
  emergency : Bool
deriving DecidableEq, Repr

/-- A safety-constraint dict: its `"forbid"` list and optional `"reason"`. -/
structure SafetyConstraint where
  forbid : List String
  reason : Option String
deriving DecidableEq, Repr

structure Decision where
  decision_type : DecisionType
  confidence : ℚ
  reasoning : String
  recommended_action : Option ActionR
  safety_check_passed : Bool
deriving DecidableEq, Repr

/-- `DecisionMaker._check_safety_constraints`: first matching forbid-list
wins, then the hard-coded non-emergency-shutdown rule. -/
def check_safety_constraints (constraints : List SafetyConstraint)
    (action : Option ActionR) : Bool × String :=
  match action with
  | none => (true, "")
  | some a =>
    match constraints.find? (fun c => c.forbid.contains a.type) with
    | some c => (false, c.reason.getD ("Action type " ++ a.type ++ " is forbidden"))
    | none =>
      if a.type == "shutdown" && !a.emergency then
        (false, "Non-emergency shutdown requires explicit emergency flag")
      else (true, "")

/-- The safety-violation condition as stated by the spec: some registered
constraint's forbid-list contains the action's type, or the action is a
`"shutdown"` without the emergency flag. -/
def safety_violated (constraints : List SafetyConstraint)
    (action : Option ActionR) : Bool :=
  match action with
  | none => false
  | some a =>
    constraints.any (fun c => c.forbid.contains a.type)
      || (a.type == "shutdown" && !a.emergency)

/-- `DecisionMaker.THRESHOLDS`. -/
def T_auto : ℚ := 90/100

def T_approval : ℚ := 70/100

/-- `DecisionMaker.decide`. -/
def DecisionMaker.decide (constraints : List SafetyConstraint)
    (confidence_result : ConfidenceResult) (proposed_action : Option ActionR) :
    Decision :=
  let confidence := confidence_result.total
  let sp := check_safety_constraints constraints proposed_action
  if !sp.1 then
    { decision_type := DecisionType.reject
      confidence := confidence
      reasoning := "Safety constraint violation: " ++ sp.2
      recommended_action := none
      safety_check_passed := false }
  else if T_auto ≤ confidence then
    { decision_type := DecisionType.autoExecute
      confidence := confidence
      reasoning := "High confidence - auto execution approved"
      recommended_action := proposed_action
      safety_check_passed := true }
  else if T_approval ≤ confidence then
    { decision_type := DecisionType.requireApproval
      confidence := confidence
      reasoning := "Medium confidence - human approval required"
      recommended_action := proposed_action
      safety_check_passed := true }
  else
    { decision_type := DecisionType.requireAnalysis
      confidence := confidence
      reasoning := "Low confidence - additional analysis needed"
      recommended_action := none
      safety_check_passed := true }

/-! ### Approval workflow (`approval_workflow.py`)

`self._proposals` (a dict keyed by the `uuid4` proposal id) is modelled as
a list of proposals in insertion order, looked up by id; callbacks are
modelled as functions `Proposal → Except String Unit` (an `Except.error`
models a raised exception, which the source catches and discards). -/

inductive ProposalStatus
  | pending
  | approved
  | rejected
  | modified
  | expired
deriving DecidableEq, Repr

structure Proposal where
  proposal_id : String
  twin_id : String
  summary : String
  evidence : List (List (String × String))
  recommended_action : List (String × String)
  confidence : ℚ
  status : ProposalStatus
  created_at : ℕ
  expires_at : Option ℕ
  approved_by : Option String
  approval_reason : Option String
deriving DecidableEq, Repr

structure ApprovalWorkflow where
  proposals : List Proposal
  on_approved : List (Proposal → Except String Unit)
  on_rejected : List (Proposal → Except String Unit)

/-- `ApprovalWorkflow.DEFAULT_TIMEOUT_HOURS`. -/
def DEFAULT_TIMEOUT_HOURS : ℕ := 24

/-- `ApprovalWorkflow.create_proposal`: the `uuid4` id is a parameter, `now`
models `datetime.utcnow()`, and time is counted in hours so that
`expires_at = now + timeout_hours`. -/
def create_proposal (proposal_id twin_id summary : String)
    (evidence : List (List (String × String)))
    (recommended_action : List (String × String)) (confidence : ℚ)
    (now timeout_hours : ℕ) : Proposal :=
  { proposal_id := proposal_id
    twin_id := twin_id
    summary := summary
    evidence := evidence
    recommended_action := recommended_action
    confidence := confidence
    status := ProposalStatus.pending
    created_at := now
    expires_at := some (now + timeout_hours)
    approved_by := none
    approval_reason := none }

/-- `self._proposals.get(proposal_id)`. -/
def findProposal (proposals : List Proposal) (proposal_id : String) : Option Proposal :=
  proposals.find? (fun p => p.proposal_id == proposal_id)

/-- The in-place field mutation performed by a successful `approve`. -/
def approvedVersion (p : Proposal) (approver_id : String) (reason : Option String) :
    Proposal :=
  { p with
    status := ProposalStatus.approved
    approved_by := some approver_id
    approval_reason := some (reason.getD "Approved") }

/-- The in-place field mutation performed by a successful `reject`. -/
def rejectedVersion (p : Proposal) (rejector_id reason : String) : Proposal :=
  { p with
    status := ProposalStatus.rejected
    approved_by := some rejector_id
    approval_reason := some reason }

/-- Replace the proposal stored under `proposal_id` (in-place object
mutation in the source). -/
def storeProposal (proposals : List Proposal) (proposal_id : String)
    (p : Proposal) : List Proposal :=
  proposals.map (fun q => if q.proposal_id == proposal_id then p else q)

/-- `ApprovalWorkflow.approve`.  Returns (return value, new state, the
outcome of each `on_approved` callback — every callback is invoked and a
raised exception is caught and discarded). -/
def approve (wf : ApprovalWorkflow) (proposal_id approver_id : String)
    (reason : Option String) :
    Option Proposal × ApprovalWorkflow × List (Except String Unit) :=
  match findProposal wf.proposals proposal_id with
  | none => (none, wf, [])
  | some p =>
    if p.status ≠ ProposalStatus.pending then (none, wf, [])
    else
      let p' := approvedVersion p approver_id reason
      (some p',
       { wf with proposals := storeProposal wf.proposals proposal_id p' },
       wf.on_approved.map (fun cb => cb p'))

/-- `ApprovalWorkflow.reject` (the rejection reason is mandatory). -/
def reject (wf : ApprovalWorkflow) (proposal_id rejector_id reason : String) :
    Option Proposal × ApprovalWorkflow × List (Except String Unit) :=
  match findProposal wf.proposals proposal_id with
  | none => (none, wf, [])
  | some p =>
    if p.status ≠ ProposalStatus.pending then (none, wf, [])
    else
      let p' := rejectedVersion p rejector_id reason
      (some p',
       { wf with proposals := storeProposal wf.proposals proposal_id p' },
       wf.on_rejected.map (fun cb => cb p'))

/-- The `twin_id` filter of `list_pending`: the source skips a proposal iff
the filter argument is truthy (non-`None`, nonempty) and differs from the
proposal's twin. -/
def matchTwin (twin_id : Option String) (p : Proposal) : Bool :=
  match twin_id with
  | none => true
  | some t => if t = "" then true else p.twin_id == t

/-- The expiry test `proposal.expires_at and proposal.expires_at < now`. -/
def isExpired (now : ℕ) (p : Proposal) : Bool :=
  match p.expires_at with
  | none => false
  | some e => e < now

/-- The loop body of `list_pending`: returns the collected still-pending
proposals (unsorted) and the updated proposal table. -/
def list_pending_scan (now : ℕ) (twin_id : Option String) :
    List Proposal → List Proposal × List Proposal
  | [] => ([], [])
  | p :: rest =>
    let r := list_pending_scan now twin_id rest
    if p.status ≠ ProposalStatus.pending then (r.1, p :: r.2)
    else if ¬ matchTwin twin_id p then (r.1, p :: r.2)
    else if isExpired now p then
      (r.1, { p with status := ProposalStatus.expired } :: r.2)
    else (p :: r.1, p :: r.2)

/-- Newest-first order: `sorted(key=created_at, reverse=True)`. -/
def newerFirst (a b : Proposal) : Prop := b.created_at ≤ a.created_at

instance : DecidableRel newerFirst := fun a b => Nat.decLe b.created_at a.created_at

instance : IsTotal Proposal newerFirst :=
  ⟨fun a b => (Nat.le_total b.created_at a.created_at).imp id id⟩

instance : IsTrans Proposal newerFirst :=
  ⟨fun _ _ _ hab hbc => Nat.le_trans hbc hab⟩

/-- `ApprovalWorkflow.list_pending`: scan (with the lazy expiry flip as a
side effect) then sort newest-first. -/
def list_pending (wf : ApprovalWorkflow) (now : ℕ) (twin_id : Option String) :
    List Proposal × ApprovalWorkflow :=
  let r := list_pending_scan now twin_id wf.proposals
  (List.insertionSort newerFirst r.1, { wf with proposals := r.2 })

/-- Characterisation of which proposals `list_pending` keeps: still pending,
matching the (truthy) filter, and not past expiry. -/
def keepPred (now : ℕ) (twin_id : Option String) (p : Proposal) : Bool :=
  (p.status == ProposalStatus.pending) && matchTwin twin_id p && !(isExpired now p)

/-- Characterisation of the `list_pending` side effect on one stored
proposal: the lazy flip to EXPIRED. -/
def expireFlip (now : ℕ) (twin_id : Option String) (p : Proposal) : Proposal :=
  if (p.status == ProposalStatus.pending) && matchTwin twin_id p && isExpired now p then
    { p with status := ProposalStatus.expired }
  else p

/-! ### Permission model (`permission_model.py`)

`self._roles` and `self._user_roles` (dicts) are modelled as association
lists; `fnmatch.fnmatch` (Python standard library, outside this repository)
is an opaque parameter of `check_permission`.  Audit timestamps are
elided. -/

inductive Permission
  | read
  | propose
  | approve
  | execute
deriving DecidableEq, Repr

structure Role where
  name : String
  permissions : List Permission
  scope : Option String
deriving DecidableEq, Repr

/-- `Role.has_permission`. -/
def Role.has_permission (r : Role) (p : Permission) : Bool :=
  r.permissions.contains p

/-- One entry of `self._audit_log` (the timestamp is elided);
`result = true` records `"granted"`. -/
structure AuditEntry where
  user_id : String
  permission : Permission
  resource_id : Option String
  result : Bool
deriving DecidableEq, Repr

structure PermissionChecker where
  roles : List (String × Role)
  user_roles : List (String × List String)
  audit_log : List AuditEntry
deriving Repr

/-- `PermissionChecker.DEFAULT_ROLES`. -/
def DEFAULT_ROLES : List (String × Role) :=
  [("viewer", { name := "viewer", permissions := [Permission.read], scope := none }),
   ("agent", { name := "agent",
               permissions := [Permission.read, Permission.propose], scope := none }),
   ("supervisor", { name := "supervisor",
                    permissions := [Permission.read, Permission.propose, Permission.approve],
                    scope := none }),
   ("executor", { name := "executor",
                  permissions := [Permission.read, Permission.execute], scope := none }),
   ("admin", { name := "admin",
               permissions := [Permission.read, Permission.propose,
                               Permission.approve, Permission.execute],
               scope := none })]

/-- `PermissionChecker.ROLE_HIERARCHY` (static table). -/
def ROLE_HIERARCHY (name : String) : List String :=
  if name = "admin" then ["supervisor", "executor"]
  else if name = "supervisor" then ["agent", "viewer"]
  else if name = "executor" then ["viewer"]
  else if name = "agent" then ["viewer"]
  else []

/-- A fresh `PermissionChecker()`. -/
def initChecker : PermissionChecker :=
  { roles := DEFAULT_ROLES, user_roles := [], audit_log := [] }

/-- Dict lookup `self._roles.get(name)`. -/
def lookupRole (roles : List (String × Role)) (name : String) : Option Role :=
  (roles.find? (fun kv => kv.1 == name)).map Prod.snd

/-- Dict assignment `self._roles[name] = role`. -/
def assocSetRole (roles : List (String × Role)) (name : String) (r : Role) :
    List (String × Role) :=
  if roles.any (fun kv => kv.1 == name) then
    roles.map (fun kv => if kv.1 == name then (name, r) else kv)
  else roles ++ [(name, r)]

/-- `PermissionChecker.register_role`. -/
def register_role (pc : PermissionChecker) (r : Role) : PermissionChecker :=
  { pc with roles := assocSetRole pc.roles r.name r }

/-- `self._user_roles.get(user_id, set())` (a set, modelled as a
duplicate-free list). -/
def lookupUserRoles (user_roles : List (String × List String)) (user_id : String) :
    List String :=
  ((user_roles.find? (fun kv => kv.1 == user_id)).map Prod.snd).getD []

/-- Dict assignment `self._user_roles[user_id] = rs`. -/
def assocSetUser (user_roles : List (String × List String)) (user_id : String)
    (rs : List String) : List (String × List String) :=
  if user_roles.any (fun kv => kv.1 == user_id) then
    user_roles.map (fun kv => if kv.1 == user_id then (user_id, rs) else kv)
  else user_roles ++ [(user_id, rs)]

/-- `PermissionChecker.assign_role`. -/
def assign_role (pc : PermissionChecker) (user_id role_name : String) :
    Bool × PermissionChecker :=
  if (lookupRole pc.roles role_name).isNone then (false, pc)
  else
    let cur := lookupUserRoles pc.user_roles user_id
    let cur' := if cur.contains role_name then cur else cur ++ [role_name]
    (true, { pc with user_roles := assocSetUser pc.user_roles user_id cur' })

/-- `PermissionChecker._get_effective_roles`: the direct roles plus ONE
round of hierarchy expansion (the source iterates over a snapshot of the
directly assigned roles only). -/
def get_effective_roles (pc : PermissionChecker) (user_id : String) : List String :=
  let direct := lookupUserRoles pc.user_roles user_id
  direct ++ direct.flatMap ROLE_HIERARCHY

/-- One iteration of the `check_permission` role loop: does `role_name`
grant the request?  The scope test runs only when both the role's scope and
the resource id are truthy (non-`None`, nonempty). -/
def grantsVia (roles : List (String × Role)) (permission : Permission)
    (resource_id : Option String) (fnmatch : String → String → Bool)
    (role_name : String) : Bool :=
  match lookupRole roles role_name with
  | none => false
  | some role =>
    if role.has_permission permission then
      match role.scope, resource_id with
      | some sc, some rid =>
        if sc = "" || rid = "" then true else fnmatch sc rid
      | _, _ => true
    else false

/-- `PermissionChecker.check_permission`: the loop grants iff some
effective role passes `grantsVia`, and exactly one audit entry recording
the verdict is appended (`_log_access`). -/
def check_permission (pc : PermissionChecker) (fnmatch : String → String → Bool)
    (user_id : String) (permission : Permission) (resource_id : Option String) :
    Bool × PermissionChecker :=
  let granted :=
    (get_effective_roles pc user_id).any
      (grantsVia pc.roles permission resource_id fnmatch)
  (granted,
   { pc with
     audit_log := pc.audit_log
       ++ [{ user_id := user_id, permission := permission,
             resource_id := resource_id, result := granted }] })

/-! ### Concrete instances used by witnesses and counterexamples -/

/-- A safety constraint forbidding `"restart"` actions. -/
def cs1 : List SafetyConstraint :=
  [{ forbid := ["restart"], reason := some "maintenance window" }]

/-- A high-confidence result (`total = 0.95`). -/
def cr95 : ConfidenceResult :=
  { total := 95/100
    components :=
      { historical_success_rate := 0, data_quality_score := 0
        simulation_consistency := 0, ai_consensus_score := 0 } }

/-- A proposed `"restart"` action without emergency flag. -/
def actRestart : Option ActionR := some { type := "restart", emergency := false }

/-- A pending proposal (`timeout_hours = 24`, created at hour 0). -/
def propPending : Proposal :=
  create_proposal "p1" "twin_a" "scale up" [] [("type", "scale")] 1 0 24

/-- An already-approved proposal stored under id `"p2"`. -/
def propApproved : Proposal :=
  { propPending with proposal_id := "p2", status := ProposalStatus.approved }

/-- A still-pending proposal whose expiry (hour 24) is already past. -/
def wfPending : ApprovalWorkflow :=
  { proposals := [propPending], on_approved := [], on_rejected := [] }

def wfApproved : ApprovalWorkflow :=
  { proposals := [propApproved], on_approved := [], on_rejected := [] }

/-- A workflow whose first approval callback raises and whose second
succeeds, plus a raising rejection callback. -/
def wfCallbacks : ApprovalWorkflow :=
  { proposals := [propPending]
    on_approved := [fun _ => Except.error "boom", fun _ => Except.ok ()]
    on_rejected := [fun _ => Except.error "crash"] }

/-- A pending proposal of twin `"a"` that expired at hour 0. -/
def propStale : Proposal :=
  { proposal_id := "p1", twin_id := "a", summary := "s", evidence := []
    recommended_action := [], confidence := 1
    status := ProposalStatus.pending, created_at := 0, expires_at := some 0
    approved_by := none, approval_reason := none }

def wfStale : ApprovalWorkflow :=
  { proposals := [propStale], on_approved := [], on_rejected := [] }

/-- The checker obtained from a fresh `PermissionChecker()` by re-registering
`admin`, `supervisor` and `executor` with empty permission sets (so that only
the built-in `viewer`, two hierarchy steps below `admin`, grants READ) and
assigning `admin` to user `"u"`. -/
def cexPC : PermissionChecker :=
  (assign_role
    (register_role
      (register_role
        (register_role initChecker { name := "admin", permissions := [], scope := none })
        { name := "supervisor", permissions := [], scope := none })
      { name := "executor", permissions := [], scope := none })
    "u" "admin").2

/-- A custom role granting READ under a scope pattern. -/
def scopedOps : Role :=
  { name := "ops", permissions := [Permission.read], scope := some "twin-*" }

/-- A fresh checker with the scoped role registered and assigned to `"u"`. -/
def scopedPC : PermissionChecker :=
  (assign_role (register_role initChecker scopedOps) "u" "ops").2

/-! ## Helper lemmas -/

theorem le_foldl_max {α : Type} [LinearOrder α] (l : List α) (a b : α) (h : a ≤ b) :
    a ≤ l.foldl max b := by
  induction l generalizing b with
  | nil => exact h
  | cons c tl ih => exact ih (max b c) (le_trans h (le_max_left b c))

theorem foldl_max_le {α : Type} [LinearOrder α] (l : List α) (b init : α)
    (hi : init ≤ b) (h : ∀ x ∈ l, x ≤ b) : l.foldl max init ≤ b := by
  induction l generalizing init with
  | nil => exact hi
  | cons c tl ih =>
    exact ih (max init c) (max_le hi (h c (List.mem_cons_self c tl)))
      (fun x hx => h x (List.mem_cons_of_mem c hx))

/-- The boolean returned by `_check_safety_constraints` is exactly the
negation of the spec's violation condition. -/
theorem check_safety_constraints_fst (constraints : List SafetyConstraint)
    (action : Option ActionR) :
    (check_safety_constraints constraints action).1 = !safety_violated constraints action := by
  cases action with
  | none => rfl
  | some a =>
    unfold check_safety_constraints safety_violated
    cases hfind : constraints.find? (fun c => c.forbid.contains a.type) with
    | some c =>
      have hc : c.forbid.contains a.type = true := by
        simpa using List.find?_some hfind
      have hmem : c ∈ constraints := List.mem_of_find?_eq_some hfind
      have hany : constraints.any (fun c => c.forbid.contains a.type) = true :=
        List.any_eq_true.mpr ⟨c, hmem, hc⟩
      simp only [hfind]
      rw [hany]
      simp
    | none =>
      have hall : constraints.any (fun c => c.forbid.contains a.type) = false := by
        rw [List.any_eq_false]
        intro c hc
        have := List.find?_eq_none.mp hfind c hc
        simpa using this
      simp only [hfind, hall, Bool.false_or]
      cases hsd : (a.type == "shutdown" && !a.emergency) <;> simp [hsd]

theorem list_pending_scan_spec (now : ℕ) (twin_id : Option String)
    (l : List Proposal) :
    list_pending_scan now twin_id l
      = (l.filter (keepPred now twin_id), l.map (expireFlip now twin_id)) := by
  induction l with
  | nil => rfl
  | cons p rest ih =>
    unfold list_pending_scan
    rw [ih]
    by_cases hst : p.status = ProposalStatus.pending
    · by_cases hm : matchTwin twin_id p = true
      · by_cases he : isExpired now p = true
        · simp [hst, hm, he, keepPred, expireFlip]
        · simp [hst, hm, he, keepPred, expireFlip]
      · simp [hst, hm, keepPred, expireFlip]
    · simp [hst, keepPred, expireFlip]

/-- Looking up `proposal_id` after `storeProposal` finds the stored object,
provided something was stored under that id before. -/
theorem findProposal_store (l : List Proposal) (pid : String) (p' : Proposal)
    (hid : (p'.proposal_id == pid) = true)
    (hl : (findProposal l pid).isSome = true) :
    findProposal (storeProposal l pid p') pid = some p' := by
  induction l with
  | nil => simp [findProposal] at hl
  | cons q rest ih =>
    unfold findProposal storeProposal at *
    cases hq : (q.proposal_id == pid) with
    | true =>
      simp only [List.map_cons, hq, if_true]
      exact List.find?_cons_of_pos _ hid
    | false =>
      simp only [List.map_cons, hq, if_false]
      rw [List.find?_cons_of_neg _ (by simp [hq])]
      rw [List.find?_cons_of_neg _ (by simp [hq])] at hl
      exact ih hl

/-- No proposal stored under `pid` is pending. -/
def resolvedAt (wf : ApprovalWorkflow) (pid : String) : Prop :=
  ∀ p, findProposal wf.proposals pid = some p → p.status ≠ ProposalStatus.pending

theorem approve_noop_of_resolved (wf : ApprovalWorkflow) (pid a : String)
    (r : Option String) (h : resolvedAt wf pid) :
    (approve wf pid a r).1 = none := by
  unfold approve
  cases hf : findProposal wf.proposals pid with
  | none => rfl
  | some p => simp [h p hf]

theorem reject_noop_of_resolved (wf : ApprovalWorkflow) (pid a r : String)
    (h : resolvedAt wf pid) :
    (reject wf pid a r).1 = none := by
  unfold reject
  cases hf : findProposal wf.proposals pid with
  | none => rfl
  | some p => simp [h p hf]

theorem resolvedAt_after_approve (wf : ApprovalWorkflow) (pid a : String)
    (r : Option String) : resolvedAt (approve wf pid a r).2.1 pid := by
  unfold approve
  cases hf : findProposal wf.proposals pid with
  | none =>
    intro p hp
    rw [hf] at hp
    cases hp
  | some p =>
    by_cases hst : p.status = ProposalStatus.pending
    · simp only [hst, ne_eq, not_true_eq_false, if_false, ite_not]
      intro q hq
      have hid : ((approvedVersion p a r).proposal_id == pid) = true := by
        have := List.find?_some hf
        simpa [approvedVersion] using this
      have := findProposal_store wf.proposals pid (approvedVersion p a r) hid
        (by rw [hf]; rfl)
      simp only [hst, if_true] at hq
      rw [this] at hq
      cases hq
      simp [approvedVersion]
    · simp only [hst]
      intro q hq
      simp only [ne_eq, hst, not_false_eq_true, if_true] at hq
      rw [hf] at hq
      cases hq
      exact hst

theorem resolvedAt_after_reject (wf : ApprovalWorkflow) (pid a r : String) :
    resolvedAt (reject wf pid a r).2.1 pid := by
  unfold reject
  cases hf : findProposal wf.proposals pid with
  | none =>
    intro p hp
    rw [hf] at hp
    cases hp
  | some p =>
    by_cases hst : p.status = ProposalStatus.pending
    · simp only [hst, ne_eq, not_true_eq_false, if_false, ite_not]
      intro q hq
      have hid : ((rejectedVersion p a r).proposal_id == pid) = true := by
        have := List.find?_some hf
        simpa [rejectedVersion] using this
      have := findProposal_store wf.proposals pid (rejectedVersion p a r) hid
        (by rw [hf]; rfl)
      simp only [hst, if_true] at hq
      rw [this] at hq
      cases hq
      simp [rejectedVersion]
    · simp only [hst]
      intro q hq
      simp only [ne_eq, hst, not_false_eq_true, if_true] at hq
      rw [hf] at hq
      cases hq
      exact hst

/-! ## Claim C1 -/

/-- Claim C1: `decide` returns AutoExecute when `0.90 ≤ t`, RequireApproval
when `0.70 ≤ t < 0.90` and RequireAnalysis when `t < 0.70`, unless a
registered constraint's forbid-list contains the proposed action's type or
the action is a non-emergency `"shutdown"`, in which case the decision is
Reject with `safety_check_passed = false` regardless of `t`. -/
theorem decide_thresholds_unless_safety (cs : List SafetyConstraint)
    (cr : ConfidenceResult) (a : Option ActionR) :
    (safety_violated cs a = true →
       (DecisionMaker.decide cs cr a).decision_type = DecisionType.reject ∧
       (DecisionMaker.decide cs cr a).safety_check_passed = false) ∧
    (safety_violated cs a = false →
       (DecisionMaker.decide cs cr a).safety_check_passed = true ∧
       (T_auto ≤ cr.total →
         (DecisionMaker.decide cs cr a).decision_type = DecisionType.autoExecute) ∧
       (T_approval ≤ cr.total → cr.total < T_auto →
         (DecisionMaker.decide cs cr a).decision_type = DecisionType.requireApproval) ∧
       (cr.total < T_approval →
         (DecisionMaker.decide cs cr a).decision_type = DecisionType.requireAnalysis)) := by
  constructor
  · intro hv
    have h1 : (check_safety_constraints cs a).1 = false := by
      rw [check_safety_constraints_fst, hv]
      rfl
    constructor <;> simp [DecisionMaker.decide, h1]
  · intro hv
    have h1 : (check_safety_constraints cs a).1 = true := by
      rw [check_safety_constraints_fst, hv]
      rfl
    refine ⟨?_, ?_, ?_, ?_⟩
    · simp only [DecisionMaker.decide, h1]
      split_ifs <;> simp_all
    · intro h9
      simp [DecisionMaker.decide, h1, h9]
    · intro h7 h9
      have hA : ¬ T_auto ≤ cr.total := not_le.mpr h9
      simp [DecisionMaker.decide, h1, hA, h7]
    · intro h7
      have hA : ¬ T_auto ≤ cr.total :=
        not_le.mpr (lt_trans h7 (by norm_num [T_approval, T_auto]))
      have hB : ¬ T_approval ≤ cr.total := not_le.mpr h7
      simp [DecisionMaker.decide, h1, hA, hB]

/-- Witness for C1: a forbidden `"restart"` action is rejected even at
confidence `0.95`. -/
theorem decide_thresholds_unless_safety_witness :
    (DecisionMaker.decide cs1 cr95 actRestart).decision_type = DecisionType.reject ∧
    (DecisionMaker.decide cs1 cr95 actRestart).safety_check_passed = false :=
  (decide_thresholds_unless_safety cs1 cr95 actRestart).1 (by decide)

/-! ## Claim C2 -/

/-- Claim C2: `approve` and `reject` mutate a proposal only when its current
status is PENDING; on a missing id or any other status they return `none`
and leave the proposal table unchanged, and after any `approve`/`reject`
call a second resolution attempt on the same id is always a no-op. -/
theorem approve_reject_only_pending (wf : ApprovalWorkflow)
    (pid approver rejector : String) (reason : Option String) (rreason : String) :
    ((findProposal wf.proposals pid).all
        (fun p => p.status != ProposalStatus.pending) = true →
       (approve wf pid approver reason).1 = none ∧
       (approve wf pid approver reason).2.1.proposals = wf.proposals ∧
       (reject wf pid rejector rreason).1 = none ∧
       (reject wf pid rejector rreason).2.1.proposals = wf.proposals) ∧
    (∀ p, findProposal wf.proposals pid = some p →
       p.status = ProposalStatus.pending →
       (approve wf pid approver reason).1 = some (approvedVersion p approver reason) ∧
       (reject wf pid rejector rreason).1 = some (rejectedVersion p rejector rreason)) ∧
    ((approve (approve wf pid approver reason).2.1 pid approver reason).1 = none ∧
     (reject (approve wf pid approver reason).2.1 pid rejector rreason).1 = none ∧
     (approve (reject wf pid rejector rreason).2.1 pid approver reason).1 = none ∧
     (reject (reject wf pid rejector rreason).2.1 pid rejector rreason).1 = none) := by
  refine ⟨?_, ?_, ?_, ?_, ?_, ?_⟩
  · intro h
    cases hf : findProposal wf.proposals pid with
    | none => simp [approve, reject, hf]
    | some p =>
      rw [hf] at h
      have hne : p.status ≠ ProposalStatus.pending := by simpa using h
      simp [approve, reject, hf, hne]
  · intro p hf hp
    constructor <;> simp [approve, reject, hf, hp]
  · exact approve_noop_of_resolved _ _ _ _ (resolvedAt_after_approve wf pid approver reason)
  · exact reject_noop_of_resolved _ _ _ _ (resolvedAt_after_approve wf pid approver reason)
  · exact approve_noop_of_resolved _ _ _ _ (resolvedAt_after_reject wf pid rejector rreason)
  · exact reject_noop_of_resolved _ _ _ _ (resolvedAt_after_reject wf pid rejector rreason)

/-- Witness for C2: a second resolution attempt on an already-approved
proposal is a no-op that leaves the table untouched. -/
theorem approve_reject_only_pending_witness :
    (approve wfApproved "p2" "alice" none).1 = none ∧
    (approve wfApproved "p2" "alice" none).2.1.proposals = wfApproved.proposals ∧
    (reject wfApproved "p2" "bob" "dup").1 = none ∧
    (reject wfApproved "p2" "bob" "dup").2.1.proposals = wfApproved.proposals :=
  (approve_reject_only_pending wfApproved "p2" "alice" "bob" none "dup").1 (by rfl)

/-! ## Claim C7 -/

/-- Claim C7: with arbitrary registered callbacks — including ones that
raise — a successful `approve`/`reject` still completes the transition,
stores and returns the resolved proposal, and invokes every registered
callback, with every raised exception caught (the call is total and each
callback's outcome, error or not, appears in the invocation trace). -/
theorem callback_failure_isolated (wf : ApprovalWorkflow)
    (pid approver rejector : String) (reason : Option String) (rreason : String)
    (p : Proposal) (hf : findProposal wf.proposals pid = some p)
    (hp : p.status = ProposalStatus.pending) :
    ((approve wf pid approver reason).1 = some (approvedVersion p approver reason) ∧
     (approvedVersion p approver reason).status = ProposalStatus.approved ∧
     findProposal (approve wf pid approver reason).2.1.proposals pid
       = some (approvedVersion p approver reason) ∧
     (approve wf pid approver reason).2.2
       = wf.on_approved.map (fun cb => cb (approvedVersion p approver reason))) ∧
    ((reject wf pid rejector rreason).1 = some (rejectedVersion p rejector rreason) ∧
     (rejectedVersion p rejector rreason).status = ProposalStatus.rejected ∧
     findProposal (reject wf pid rejector rreason).2.1.proposals pid
       = some (rejectedVersion p rejector rreason) ∧
     (reject wf pid rejector rreason).2.2
       = wf.on_rejected.map (fun cb => cb (rejectedVersion p rejector rreason))) := by
  have hid : (p.proposal_id == pid) = true := by
    simpa using List.find?_some hf
  have ha := findProposal_store wf.proposals pid (approvedVersion p approver reason)
    (by simpa [approvedVersion] using hid) (by rw [hf]; rfl)
  have hr := findProposal_store wf.proposals pid (rejectedVersion p rejector rreason)
    (by simpa [rejectedVersion] using hid) (by rw [hf]; rfl)
  refine ⟨⟨?_, rfl, ?_, ?_⟩, ?_, rfl, ?_, ?_⟩
  · simp [approve, hf, hp]
  · simpa [approve, hf, hp] using ha
  · simp [approve, hf, hp]
  · simp [reject, hf, hp]
  · simpa [reject, hf, hp] using hr
  · simp [reject, hf, hp]

/-- Witness for C7: with a raising first callback and a succeeding second
one, the proposal still ends APPROVED and both callbacks ran. -/
theorem callback_failure_isolated_witness :
    (approve wfCallbacks "p1" "alice" none).1
      = some (approvedVersion propPending "alice" none) ∧
    (approve wfCallbacks "p1" "alice" none).2.2
      = [Except.error "boom", Except.ok ()] := by
  have h := callback_failure_isolated wfCallbacks "p1" "alice" "bob" none "no"
    propPending rfl rfl
  exact ⟨h.1.1, (h.1.2.2.2).trans rfl⟩

/-! ## Claim C8 -/

/-- Claim C8: `approve` and `reject` never consult the clock — a proposal
that is still PENDING can be resolved even when `expires_at` is already in
the past (expiry is applied lazily, only inside `list_pending`). -/
theorem approve_reject_ignore_expiry (wf : ApprovalWorkflow)
    (pid approver rejector : String) (reason : Option String) (rreason : String)
    (p : Proposal) (now e : ℕ)
    (hf : findProposal wf.proposals pid = some p)
    (hp : p.status = ProposalStatus.pending)
    (he : p.expires_at = some e) (hlt : e < now) :
    isExpired now p = true ∧
    (approve wf pid approver reason).1 = some (approvedVersion p approver reason) ∧
    (approvedVersion p approver reason).status = ProposalStatus.approved ∧
    (reject wf pid rejector rreason).1 = some (rejectedVersion p rejector rreason) ∧
    (rejectedVersion p rejector rreason).status = ProposalStatus.rejected := by
  refine ⟨?_, ?_, rfl, ?_, rfl⟩
  · simp [isExpired, he, hlt]
  · simp [approve, hf, hp]
  · simp [reject, hf, hp]

/-- Witness for C8: the proposal that expired at hour 0 is approved at any
later time, and symmetrically rejected. -/
theorem approve_reject_ignore_expiry_witness :
    isExpired 5 propStale = true ∧
    (approve wfStale "p1" "alice" none).1
      = some (approvedVersion propStale "alice" none) ∧
    (approvedVersion propStale "alice" none).status = ProposalStatus.approved ∧
    (reject wfStale "p1" "bob" "late").1
      = some (rejectedVersion propStale "bob" "late") ∧
    (rejectedVersion propStale "bob" "late").status = ProposalStatus.rejected :=
  approve_reject_ignore_expiry wfStale "p1" "alice" "bob" none "late" propStale 5 0
    rfl rfl rfl (by norm_num)

/-! ## Claim C5 -/

/-- Claim C5 counterexample: with a subject filter that does not match, a
PENDING proposal whose expiry is past is NOT flipped to EXPIRED by
`list_pending` (the filter check precedes the expiry check), contradicting
the claim's "every stored proposal". -/
theorem list_pending_filtered_skips_expiry_flip :
    propStale.status = ProposalStatus.pending ∧
    propStale.expires_at = some 0 ∧ (0:ℕ) < 5 ∧
    (list_pending wfStale 5 (some "b")).2.proposals.map Proposal.status
      = [ProposalStatus.pending] := by
  refine ⟨rfl, rfl, by norm_num, ?_⟩
  rfl

/-- Claim C5 (amended): `list_pending` flips to EXPIRED exactly the stored
proposals that are PENDING, *match the (truthy) subject filter*, and are
past expiry; it returns exactly the remaining kept proposals sorted
newest-first by creation time; and a matching proposal created with
`timeout_hours = 0` is excluded (and flipped) on any strictly later call. -/
theorem list_pending_spec (wf : ApprovalWorkflow) (now : ℕ)
    (twin_id : Option String) :
    ((list_pending wf now twin_id).2.proposals
       = wf.proposals.map (expireFlip now twin_id)) ∧
    ((list_pending wf now twin_id).1).Perm
       (wf.proposals.filter (keepPred now twin_id)) ∧
    List.Sorted newerFirst (list_pending wf now twin_id).1 ∧
    (∀ pid twin s ev act conf t, t < now →
       keepPred now twin_id (create_proposal pid twin s ev act conf t 0) = false ∧
       (matchTwin twin_id (create_proposal pid twin s ev act conf t 0) = true →
         expireFlip now twin_id (create_proposal pid twin s ev act conf t 0)
           = { create_proposal pid twin s ev act conf t 0 with
               status := ProposalStatus.expired })) := by
  refine ⟨?_, ?_, ?_, ?_⟩
  · simp [list_pending, list_pending_scan_spec]
  · simp only [list_pending, list_pending_scan_spec]
    exact List.perm_insertionSort newerFirst _
  · simp only [list_pending, list_pending_scan_spec]
    exact List.sorted_insertionSort newerFirst _
  · intro pid twin s ev act conf t hlt
    have hexp : isExpired now (create_proposal pid twin s ev act conf t 0) = true := by
      simp [isExpired, create_proposal]
      omega
    constructor
    · simp [keepPred, hexp]
    · intro hm
      unfold expireFlip
      rw [hm, hexp]
      simp [create_proposal]

/-- Witness for C5: a proposal created with `timeout_hours = 0` at hour 0 is
not kept by a `list_pending` call at hour 1. -/
theorem list_pending_spec_witness :
    keepPred 1 none (create_proposal "p" "tw" "s" [] [] 1 0 0) = false :=
  ((list_pending_spec { proposals := [], on_approved := [], on_rejected := [] }
      1 none).2.2.2 "p" "tw" "s" [] [] 1 0 (by norm_num)).1

/-! ## Claim C3 -/

theorem compute_historical_success_mem (h : List HistoryEntry) :
    0 ≤ compute_historical_success h ∧ compute_historical_success h ≤ 1 := by
  unfold compute_historical_success
  split_ifs with hlen
  · norm_num
  · have hpos : (0:ℚ) < (h.length : ℚ) := by
      have : 10 ≤ h.length := by omega
      exact_mod_cast Nat.lt_of_lt_of_le (by norm_num) this
    constructor
    · positivity
    · rw [div_le_one hpos]
      exact_mod_cast List.length_filter_le _ h

theorem compute_sim_consistency_mem (s : Option SimResult)
    (hunc : ∀ u, s = some u → ∀ kv ∈ u.uncertainty, 0 ≤ kv.2) :
    0 ≤ compute_sim_consistency s ∧ compute_sim_consistency s ≤ 1 := by
  cases s with
  | none => norm_num [compute_sim_consistency]
  | some u =>
    unfold compute_sim_consistency
    dsimp only
    split_ifs with hemp
    · norm_num
    · have hne : u.uncertainty ≠ [] := by simpa [List.isEmpty_iff] using hemp
      have hmax : 0 ≤ listMaxQ (u.uncertainty.map Prod.snd) := by
        cases hu : u.uncertainty with
        | nil => exact absurd hu hne
        | cons kv tl =>
          have h0 : 0 ≤ kv.2 := hunc u rfl kv (by rw [hu]; exact List.mem_cons_self kv tl)
          simpa [hu, listMaxQ] using le_foldl_max (tl.map Prod.snd) 0 kv.2 h0
      exact round4_mem_unit _ (le_max_left 0 _) (max_le (by norm_num) (by linarith))

theorem compute_ai_consensus_mem (a : Option (List Agent)) :
    0 ≤ compute_ai_consensus a ∧ compute_ai_consensus a ≤ 1 := by
  cases a with
  | none => norm_num [compute_ai_consensus]
  | some agents =>
    unfold compute_ai_consensus
    dsimp only
    split_ifs with hlen hemp
    · norm_num
    · norm_num
    · have hne : agents.filterMap agentRec ≠ [] := by
        simpa [List.isEmpty_iff] using hemp
      have hpos : (0:ℚ) < ((agents.filterMap agentRec).length : ℚ) := by
        have : 0 < (agents.filterMap agentRec).length := List.length_pos.mpr hne
        exact_mod_cast this
      have hcount : mostCommonCount (agents.filterMap agentRec)
          ≤ (agents.filterMap agentRec).length := by
        unfold mostCommonCount
        refine foldl_max_le _ _ _ (Nat.zero_le _) ?_
        intro x hx
        obtain ⟨y, _, rfl⟩ := List.mem_map.mp hx
        exact List.count_le_length y _
      refine round4_mem_unit _ (by positivity) ?_
      rw [div_le_one hpos]
      exact_mod_cast hcount

/-- Claim C3 (amended): given in-range inputs (the caller-supplied
`data_quality`, if any, lies in `[0,1]`, and all supplied uncertainty
standard deviations are nonnegative), the returned total lies in `[0,1]`;
unconditionally, the total is the weighted sum of the four component
scores rounded to 4 digits and the four weights sum to `1`. -/
theorem calculate_total_spec (historyMap : String → List HistoryEntry)
    (twin_id : String) (data_quality : Option ℚ)
    (simulation_result : Option SimResult) (ai_agents : Option (List Agent)) :
    ((∀ q, data_quality = some q → 0 ≤ q ∧ q ≤ 1) →
     (∀ u, simulation_result = some u → ∀ kv ∈ u.uncertainty, 0 ≤ kv.2) →
     0 ≤ (calculate historyMap twin_id data_quality simulation_result ai_agents).total ∧
     (calculate historyMap twin_id data_quality simulation_result ai_agents).total ≤ 1) ∧
    (calculate historyMap twin_id data_quality simulation_result ai_agents).total
      = round4
          ((calculate historyMap twin_id data_quality simulation_result
              ai_agents).components.historical_success_rate * W_hist
           + (calculate historyMap twin_id data_quality simulation_result
              ai_agents).components.data_quality_score * W_dq
           + (calculate historyMap twin_id data_quality simulation_result
              ai_agents).components.simulation_consistency * W_sim
           + (calculate historyMap twin_id data_quality simulation_result
              ai_agents).components.ai_consensus_score * W_ai) ∧
    W_hist + W_dq + W_sim + W_ai = 1 := by
  refine ⟨?_, rfl, by norm_num [W_hist, W_dq, W_sim, W_ai]⟩
  intro hdq hunc
  obtain ⟨h1a, h1b⟩ := compute_historical_success_mem (historyMap twin_id)
  obtain ⟨h3a, h3b⟩ := compute_sim_consistency_mem simulation_result hunc
  obtain ⟨h4a, h4b⟩ := compute_ai_consensus_mem ai_agents
  have h2 : 0 ≤ data_quality.getD (8/10) ∧ data_quality.getD (8/10) ≤ 1 := by
    cases hd : data_quality with
    | none => norm_num
    | some q => simpa using hdq q hd
  obtain ⟨h2a, h2b⟩ := h2
  unfold calculate
  refine round4_mem_unit _ ?_ ?_
  · unfold W_hist W_dq W_sim W_ai
    positivity
  · unfold W_hist W_dq W_sim W_ai at *
    nlinarith [h1a, h1b, h2a, h2b, h3a, h3b, h4a, h4b]

/-- Claim C3 counterexample: with the out-of-range caller input
`data_quality = 4`, the total is `1.375 > 1`, so the claim's "any
caller-supplied data_quality" range guarantee fails. -/
theorem calculate_total_gt_one :
    1 < (calculate (fun _ => []) "twin_a" (some 4) none none).total := by
  have h : (calculate (fun _ => []) "twin_a" (some 4) none none).total = 11/8 := by
    norm_num [calculate, round4, roundHalfEvenInt, compute_historical_success,
      compute_sim_consistency, compute_ai_consensus, W_hist, W_dq, W_sim, W_ai]
  rw [h]
  norm_num

/-- Witness for C3: an in-range `data_quality = 0.9` with no simulation and
no agents yields a total inside `[0,1]`. -/
theorem calculate_total_spec_witness :
    (0 ≤ (calculate (fun _ => []) "twin_a" (some (9/10)) none none).total ∧
     (calculate (fun _ => []) "twin_a" (some (9/10)) none none).total ≤ 1) ∧
    (calculate (fun _ => []) "twin_a" (some (9/10)) none none).total
      = round4
          ((calculate (fun _ => []) "twin_a" (some (9/10)) none
              none).components.historical_success_rate * W_hist
           + (calculate (fun _ => []) "twin_a" (some (9/10)) none
              none).components.data_quality_score * W_dq
           + (calculate (fun _ => []) "twin_a" (some (9/10)) none
              none).components.simulation_consistency * W_sim
           + (calculate (fun _ => []) "twin_a" (some (9/10)) none
              none).components.ai_consensus_score * W_ai) ∧
    W_hist + W_dq + W_sim + W_ai = 1 := by
  have h := calculate_total_spec (fun _ => []) "twin_a" (some (9/10)) none none
  refine ⟨h.1 ?_ ?_, h.2.1, h.2.2⟩
  · intro q hq
    rw [Option.some.injEq] at hq
    subst hq
    norm_num
  · intro u hu
    cases hu

/-! ## Claim C4 -/

/-- Claim C4 counterexample: `_get_effective_roles` expands the static
hierarchy one level only, not transitively.  After re-registering `admin`,
`supervisor` and `executor` with empty permission sets, user `"u"` holding
only `admin` fails a READ check although `viewer` — reachable from `admin`
in two hierarchy steps — still grants READ. -/
theorem effective_roles_not_transitive :
    "supervisor" ∈ ROLE_HIERARCHY "admin" ∧
    "viewer" ∈ ROLE_HIERARCHY "supervisor" ∧
    "admin" ∈ lookupUserRoles cexPC.user_roles "u" ∧
    lookupRole cexPC.roles "viewer"
      = some { name := "viewer", permissions := [Permission.read], scope := none } ∧
    Role.has_permission
      { name := "viewer", permissions := [Permission.read], scope := none }
      Permission.read = true ∧
    (check_permission cexPC (fun _ _ => true) "u" Permission.read none).1 = false := by
  decide

/-- Claim C4 (amended): the effective role set is the directly assigned
roles plus ONE level of hierarchy expansion, and `check_permission` returns
true for every permission granted (with a satisfied or inapplicable scope)
by a held role or by a direct hierarchy child of a held role.  Under the
built-in role definitions — where each role's permission set contains those
of all its descendants — this coincides observably with the claimed
transitive closure, but not for re-registered roles. -/
theorem check_permission_one_level (pc : PermissionChecker)
    (fnmatch : String → String → Bool) (user_id : String)
    (permission : Permission) (resource_id : Option String)
    (rn rn' : String) (role : Role)
    (hdirect : rn ∈ lookupUserRoles pc.user_roles user_id)
    (hstep : rn' = rn ∨ rn' ∈ ROLE_HIERARCHY rn)
    (hrole : lookupRole pc.roles rn' = some role)
    (hperm : role.has_permission permission = true)
    (hscope : role.scope = none ∨ resource_id = none) :
    (check_permission pc fnmatch user_id permission resource_id).1 = true ∧
    get_effective_roles pc user_id
      = lookupUserRoles pc.user_roles user_id
        ++ (lookupUserRoles pc.user_roles user_id).flatMap ROLE_HIERARCHY := by
  refine ⟨?_, rfl⟩
  have hmem : rn' ∈ get_effective_roles pc user_id := by
    unfold get_effective_roles
    rcases hstep with rfl | h
    · exact List.mem_append_left _ hdirect
    · exact List.mem_append_right _ (List.mem_flatMap.mpr ⟨rn, hdirect, h⟩)
  have hgrant : grantsVia pc.roles permission resource_id fnmatch rn' = true := by
    unfold grantsVia
    rw [hrole]
    rcases hscope with h | h
    · cases resource_id <;> simp [hperm, h]
    · cases hsc : role.scope <;> simp [hperm, h, hsc]
  unfold check_permission
  dsimp only
  exact List.any_eq_true.mpr ⟨rn', hmem, hgrant⟩

/-- Witness for C4 (amended): the custom scoped role `ops`, held directly,
grants READ when no resource id is supplied. -/
theorem check_permission_one_level_witness :
    (check_permission scopedPC (fun _ _ => true) "u" Permission.read none).1 = true ∧
    get_effective_roles scopedPC "u"
      = lookupUserRoles scopedPC.user_roles "u"
        ++ (lookupUserRoles scopedPC.user_roles "u").flatMap ROLE_HIERARCHY :=
  check_permission_one_level scopedPC (fun _ _ => true) "u" Permission.read none
    "ops" "ops" scopedOps (by decide) (Or.inl rfl) (by decide) (by decide)
    (Or.inr rfl)

/-! ## Claim C6 -/

/-- Claim C6: every `check_permission` call — any user (with or without
roles), permission and optional resource — appends exactly one audit entry
recording the verdict at the end of the existing log, mutating nothing
else; `register_role` and `assign_role` never touch the audit log; and a
user with no assigned roles fails every check (but, by the first conjunct,
is still audited). -/
theorem check_permission_audits_exactly_once (pc : PermissionChecker)
    (fnmatch : String → String → Bool) (user_id : String)
    (permission : Permission) (resource_id : Option String) :
    ((check_permission pc fnmatch user_id permission resource_id).2.audit_log
       = pc.audit_log
         ++ [{ user_id := user_id, permission := permission,
               resource_id := resource_id,
               result := (check_permission pc fnmatch user_id permission
                 resource_id).1 }]) ∧
    ((check_permission pc fnmatch user_id permission resource_id).2.roles
       = pc.roles ∧
     (check_permission pc fnmatch user_id permission resource_id).2.user_roles
       = pc.user_roles) ∧
    (∀ r, (register_role pc r).audit_log = pc.audit_log) ∧
    (∀ uid rn, ((assign_role pc uid rn).2).audit_log = pc.audit_log) ∧
    (lookupUserRoles pc.user_roles user_id = [] →
       (check_permission pc fnmatch user_id permission resource_id).1 = false) := by
  refine ⟨rfl, ⟨rfl, rfl⟩, fun r => rfl, ?_, ?_⟩
  · intro uid rn
    unfold assign_role
    split_ifs <;> rfl
  · intro hempty
    unfold check_permission get_effective_roles
    dsimp only
    rw [hempty]
    rfl

/-- Witness for C6: a user with no roles is denied and the denial is
appended to the (empty) audit log of a fresh checker. -/
theorem check_permission_audits_exactly_once_witness :
    (check_permission initChecker (fun _ _ => true) "ghost"
       Permission.read none).1 = false ∧
    (check_permission initChecker (fun _ _ => true) "ghost"
       Permission.read none).2.audit_log
      = initChecker.audit_log
        ++ [{ user_id := "ghost", permission := Permission.read,
              resource_id := none,
              result := (check_permission initChecker (fun _ _ => true) "ghost"
                Permission.read none).1 }] := by
  have h := check_permission_audits_exactly_once initChecker (fun _ _ => true)
    "ghost" Permission.read none
  exact ⟨h.2.2.2.2 rfl, h.1⟩

/-! ## Claim C9 -/

/-- Claim C9: for a user holding a role that grants the permission and
declares a scope pattern, `check_permission` with `resource_id = None`
returns true — the scope restriction is enforced only when a resource id is
supplied. -/
theorem scoped_role_grants_without_resource (pc : PermissionChecker)
    (fnmatch : String → String → Bool) (user_id : String)
    (permission : Permission) (rn pat : String) (role : Role)
    (hdirect : rn ∈ lookupUserRoles pc.user_roles user_id)
    (hrole : lookupRole pc.roles rn = some role)
    (hperm : role.has_permission permission = true)
    (hscope : role.scope = some pat) :
    (check_permission pc fnmatch user_id permission none).1 = true := by
  have hmem : rn ∈ get_effective_roles pc user_id := by
    unfold get_effective_roles
    exact List.mem_append_left _ hdirect
  have hgrant : grantsVia pc.roles permission none fnmatch rn = true := by
    unfold grantsVia
    rw [hrole]
    simp [hperm, hscope]
  unfold check_permission
  dsimp only
  exact List.any_eq_true.mpr ⟨rn, hmem, hgrant⟩

/-- Witness for C9: the scoped `ops` role grants READ to `"u"` without a
resource id, for an arbitrary (here constantly-false) matcher. -/
theorem scoped_role_grants_without_resource_witness :
    (check_permission scopedPC (fun _ _ => false) "u" Permission.read none).1 = true :=
  scoped_role_grants_without_resource scopedPC (fun _ _ => false) "u"
    Permission.read "ops" "twin-*" scopedOps (by decide) (by decide) (by decide) rfl

/-! ## Claim C10 -/

theorem round4_one : round4 1 = 1 := by
  norm_num [round4, roundHalfEvenInt]

/-- Claim C10: `_compute_ai_consensus` divides the plurality count by the
number of agents that actually supplied a recommendation, not by the total
number of agents: with at least two agents of which exactly one carries a
recommendation, the component is `1.0`, not the insufficient-data default
`0.5`. -/
theorem ai_consensus_counts_reporting_agents (agents : List Agent) (r : String)
    (h2 : 2 ≤ agents.length)
    (h1 : agents.filterMap agentRec = [r]) :
    compute_ai_consensus (some agents) = 1 ∧
    compute_ai_consensus (some agents) ≠ 1/2 := by
  have hlen : ¬ agents.length < 2 := by omega
  have hmcc : mostCommonCount [r] = 1 := by
    simp [mostCommonCount]
  have h : compute_ai_consensus (some agents) = round4 1 := by
    unfold compute_ai_consensus
    dsimp only
    rw [if_neg hlen, h1]
    simp [hmcc]
  rw [h, round4_one]
  norm_num

/-- Witness for C10: two agents, one recommendation, consensus `1.0`. -/
theorem ai_consensus_counts_reporting_agents_witness :
    compute_ai_consensus
        (some [{ recommendation := some "scale" }, { recommendation := none }]) = 1 ∧
    compute_ai_consensus
        (some [{ recommendation := some "scale" }, { recommendation := none }]) ≠ 1/2 :=
  ai_consensus_counts_reporting_agents
    [{ recommendation := some "scale" }, { recommendation := none }] "scale"
    (by norm_num) (by simp [agentRec])

end OpsTwin
